import Mathlib

/-!
Shallow embedding of the time/clock core and the InputStream adapter of the
rust-sfml repository (src/src/system/time.rs, src/src/system/clock.rs,
src/src/audio/time_span.rs, src/src/system/input_stream.rs), together with
proofs settling the specification claims about them.

Machine integers are modelled as `Int` together with explicit two's-complement
wraparound at 64 bits (`wrap64`), matching Rust release-mode `i64` arithmetic.
A Rust value of type `i64` always lies in `[-2^63, 2^63)`; theorems about
arbitrary `Time` values carry that range as an explicit hypothesis (`Time.wf`).

The InputStream adapter's four `extern "C"` callbacks are embedded as
functions over an abstract source interface `StreamOps` (the monomorphized
`T: Read + Seek`); a Rust panic escaping from an `.unwrap()` inside a
callback is modelled by the `Outcome.panicked` constructor, distinct from any
normal `-1`/value return.
-/

/-- Two's-complement wraparound of an unbounded integer into the `i64` range
`[-2^63, 2^63)`: arithmetic modulo `2^64` with representatives centred at 0. -/
def wrap64 (x : Int) : Int := (x + 2 ^ 63) % 2 ^ 64 - 2 ^ 63

/-- `x` is representable as a Rust `i64`. -/
def isI64 (x : Int) : Prop := -2 ^ 63 ≤ x ∧ x < 2 ^ 63

instance (x : Int) : Decidable (isI64 x) := by unfold isI64; infer_instance

/-- `crate::ffi::system::sfTime` (src/src/ffi/system.rs lines 42-44): a single
signed 64-bit `microseconds` field; re-exported as `system::Time`. -/
structure Time where
  microseconds : Int
  deriving DecidableEq, Repr

namespace Time

/-- `Time::milliseconds` (time.rs lines 17-19): `milliseconds as i64 * 1000`.
The `i32` argument is widened to `i64` before the multiplication; we keep the
64-bit wrap to mirror the machine multiplication. -/
def milliseconds (ms : Int) : Time := ⟨wrap64 (ms * 1000)⟩

/-- `Time::microseconds` (time.rs lines 23-25): identity on the field. -/
def ofMicroseconds (microseconds : Int) : Time := ⟨microseconds⟩

/-- `Time::as_microseconds` (time.rs lines 42-44): identity. -/
def as_microseconds (t : Time) : Int := t.microseconds

/-- `Time::as_milliseconds` (time.rs lines 36-38): integer division by 1000
(Rust `/` truncates toward zero) then a narrowing `as i32` cast. -/
def as_milliseconds (t : Time) : Int :=
  (Int.tdiv t.microseconds 1000 + 2 ^ 31) % 2 ^ 32 - 2 ^ 31

/-- `Time::ZERO` (time.rs line 47). -/
def ZERO : Time := ⟨0⟩

/-- `impl Add for Time` (time.rs lines 57-63): 64-bit addition of the
microsecond fields, wrapping on overflow. -/
def add (a b : Time) : Time := ⟨wrap64 (a.microseconds + b.microseconds)⟩

/-- `impl Sub for Time` (time.rs lines 71-77): 64-bit subtraction of the
microsecond fields, wrapping on overflow. -/
def sub (a b : Time) : Time := ⟨wrap64 (a.microseconds - b.microseconds)⟩

/-- `impl Neg for Time` (time.rs lines 50-55). -/
def neg (a : Time) : Time := ⟨wrap64 (-a.microseconds)⟩

instance : Add Time := ⟨Time.add⟩

instance : Sub Time := ⟨Time.sub⟩

instance : Neg Time := ⟨Time.neg⟩

/-- `impl Default for Time` (time.rs lines 190-194): returns `Self::ZERO`. -/
def default : Time := ZERO

end Time

/-- A `Time` whose field is in the `i64` range, as every Rust `Time` is. -/
def Time.wf (t : Time) : Prop := isI64 t.microseconds

instance (t : Time) : Decidable t.wf := by unfold Time.wf; infer_instance

/-- `ffi::sfTimeSpan`, the C-ABI record exchanged with the foreign layer.
Modelled from the spec: the record's definition lives in the ffi module
outside src/; the spec fixes it as two signed 64-bit microsecond integers in
insertion order `(offset, length)`. -/
structure sfTimeSpan where
  offset : Int
  length : Int
  deriving DecidableEq, Repr

/-- `TimeSpan` (src/src/audio/time_span.rs lines 3-10): a pair of `Time`s. -/
structure TimeSpan where
  offset : Time
  length : Time
  deriving DecidableEq, Repr

namespace TimeSpan

/-- `TimeSpan::from_raw` (time_span.rs lines 13-18). -/
def from_raw (raw : sfTimeSpan) : TimeSpan :=
  { offset := ⟨raw.offset⟩, length := ⟨raw.length⟩ }

/-- `TimeSpan::into_raw` (time_span.rs lines 19-24). -/
def into_raw (s : TimeSpan) : sfTimeSpan :=
  { offset := s.offset.as_microseconds, length := s.length.as_microseconds }

end TimeSpan

/-- `sfClock` (src/src/ffi/system.rs lines 67-69): a single `start_time`
field of type `sfTime`. -/
structure sfClock where
  start_time : Time
  deriving DecidableEq, Repr

namespace Clock

/-- Modelled from the spec: `sfClock_getElapsedTime` is implemented in the
foreign CSFML library and only declared under src/ (ffi/system.rs line 189);
per spec section 4.C it samples the OS monotonic clock and returns
`now − start_time` using `Time` subtraction. The monotonic reading is passed
explicitly as `now`. -/
def elapsed_time (c : sfClock) (now : Time) : Time := now - c.start_time

/-- Modelled from the spec: `sfClock_restart` is implemented in the foreign
CSFML library and only declared under src/ (ffi/system.rs line 190); per spec
section 4.C it computes `elapsed = now − start_time`, assigns
`start_time ← now` and returns `elapsed`. -/
def restart (c : sfClock) (now : Time) : Time × sfClock :=
  (now - c.start_time, ⟨now⟩)

end Clock

/-- `std::io::SeekFrom`, the argument of the `Seek::seek` calls made by the
adapter: `Start` carries a `u64`, `End` and `Current` carry an `i64`. -/
inductive SeekFrom where
  | start (n : Nat)
  | fromEnd (n : Int)
  | current (n : Int)
  deriving DecidableEq, Repr

/-- The capability set of a monomorphized `T: Read + Seek` source as the four
callbacks use it. `readUpTo s n` models `stream.take(n).read_to_end(&mut buf)`
— `some bytes` with the bytes read on success, `none` on an I/O error —
together with the post state of the source. `seek s sf` models
`stream.seek(sf)` — `some newPos` on success, `none` on error — together with
the post state. -/
structure StreamOps (σ : Type) where
  readUpTo : σ → Nat → Option (List Nat) × σ
  seek : σ → SeekFrom → Option Nat × σ

/-- The observable outcome of one callback invocation from the foreign side:
either a normal C-ABI return carrying the result value (plus post state and
destination-buffer contents where applicable), or a Rust panic escaping from
an `.unwrap()` inside the `extern "C"` function, which never produces a
return value for the foreign caller. -/
inductive Outcome (α : Type) where
  | ret (v : α)
  | panicked
  deriving DecidableEq, Repr

/-- `true` exactly when the callback produced a normal C-ABI return value. -/
def Outcome.returnsNormally {α : Type} : Outcome α → Bool
  | .ret _ => true
  | .panicked => false

/-- `ptr::copy_nonoverlapping(buf.as_ptr(), data, buf.len())`: overwrite the
first `src.length` bytes of the destination buffer with `src`. -/
def copyInto (dest src : List Nat) : List Nat := src ++ dest.drop src.length

/-- The `read` callback (input_stream.rs lines 11-29). `size == 0` returns 0
at once; `size > 0` converts `size` to `u64` (always succeeds for positive
values), reads up to `size` bytes through a `Take` adapter, and on success
copies the bytes read into the destination and returns their count; any other
path (negative `size`, or a failed underlying read) returns `-1`. -/
def readCb {σ : Type} (ops : StreamOps σ) (s : σ) (dest : List Nat) (size : Int) :
    Outcome (Int × σ × List Nat) :=
  if size = 0 then .ret (0, s, dest)
  else if 0 < size then
    match ops.readUpTo s size.toNat with
    | (some buf, s') => .ret ((buf.length : Int), s', copyInto dest buf)
    | (none, s') => .ret (-1, s', dest)
  else .ret (-1, s, dest)

/-- The `seek` callback (input_stream.rs lines 48-57). The requested position
is converted to `u64` by `try_into().unwrap()`, which panics for a negative
argument; on a successful underlying seek the resulting `u64` position is
converted back by `try_into().unwrap()` (panics iff it exceeds `i64::MAX`);
a failed underlying seek returns `-1`. -/
def seekCb {σ : Type} (ops : StreamOps σ) (s : σ) (position : Int) :
    Outcome (Int × σ) :=
  if 0 ≤ position then
    match ops.seek s (.start position.toNat) with
    | (some n, s') => if (n : Int) < 2 ^ 63 then .ret ((n : Int), s') else .panicked
    | (none, s') => .ret (-1, s')
  else .panicked

/-- The `tell` callback (input_stream.rs lines 39-46): `seek(Current(0))`
with both the seek result and the narrowing conversion unwrapped. -/
def tellCb {σ : Type} (ops : StreamOps σ) (s : σ) : Outcome (Int × σ) :=
  match ops.seek s (.current 0) with
  | (some n, s') => if (n : Int) < 2 ^ 63 then .ret ((n : Int), s') else .panicked
  | (none, _) => .panicked

/-- The `getSize` callback (input_stream.rs lines 31-37): unwraps the current
position, unwraps a seek to the end to obtain the size, discards the result
of the restoring seek (`let _ =`), then unwraps the narrowing conversion of
the size. -/
def getSizeCb {σ : Type} (ops : StreamOps σ) (s : σ) : Outcome (Int × σ) :=
  match ops.seek s (.current 0) with
  | (none, _) => .panicked
  | (some pos, s1) =>
    match ops.seek s1 (.fromEnd 0) with
    | (none, _) => .panicked
    | (some size, s2) =>
      let s3 := (ops.seek s2 (.start pos)).2
      if (size : Int) < 2 ^ 63 then .ret ((size : Int), s3) else .panicked

/-- An in-memory seekable byte source at position `pos` over `data`,
modelling `std::io::Cursor` over a byte buffer. -/
structure MemStream where
  data : List Nat
  pos : Nat
  deriving DecidableEq, Repr

/-- `Cursor` seek: absolute positions are `u64`; `End`/`Current` offsets that
would produce a negative position are an error leaving the position
unchanged; seeking past the end is permitted. -/
def memSeek (m : MemStream) (sf : SeekFrom) : Option Nat × MemStream :=
  match sf with
  | .start n => (some n, ⟨m.data, n⟩)
  | .fromEnd off =>
    let t : Int := (m.data.length : Int) + off
    if 0 ≤ t then (some t.toNat, ⟨m.data, t.toNat⟩) else (none, m)
  | .current off =>
    let t : Int := (m.pos : Int) + off
    if 0 ≤ t then (some t.toNat, ⟨m.data, t.toNat⟩) else (none, m)

/-- `Cursor` read through `take(n).read_to_end`: yields the bytes from the
current position up to `min n (length − pos)` and advances the position by
the number of bytes read; never fails. -/
def memReadUpTo (m : MemStream) (n : Nat) : Option (List Nat) × MemStream :=
  let bytes := (m.data.drop m.pos).take n
  (some bytes, ⟨m.data, m.pos + bytes.length⟩)

/-- The `StreamOps` instance for the in-memory source. -/
def memOps : StreamOps MemStream := ⟨memReadUpTo, memSeek⟩

/-- A source whose underlying reads and seeks always fail, leaving the state
unchanged. -/
def failOps : StreamOps Unit :=
  { readUpTo := fun s _ => (none, s)
    seek := fun s _ => (none, s) }

/-- A source on which querying the current position succeeds (at 0) but the
seek to the end fails. -/
def endFailOps : StreamOps Unit :=
  { readUpTo := fun s _ => (some [], s)
    seek := fun s sf =>
      match sf with
      | .current _ => (some 0, s)
      | .fromEnd _ => (none, s)
      | .start n => (some n, s) }

/-- A source on which position query and seek-to-end succeed (size 5) but the
restoring absolute seek fails. -/
def restoreFailOps : StreamOps Unit :=
  { readUpTo := fun s _ => (some [], s)
    seek := fun s sf =>
      match sf with
      | .current _ => (some 0, s)
      | .fromEnd _ => (some 5, s)
      | .start _ => (none, s) }

/- ------------------------------------------------------------------ -/
/- Helper lemmas                                                      -/
/- ------------------------------------------------------------------ -/

theorem Time.ext_iff' (a b : Time) : a = b ↔ a.microseconds = b.microseconds := by
  cases a; cases b; simp

theorem wrap64_isI64 (x : Int) : isI64 (wrap64 x) := by
  unfold wrap64 isI64
  constructor <;> omega

theorem wrap64_eq_self (x : Int) (h : isI64 x) : wrap64 x = x := by
  unfold wrap64
  unfold isI64 at h
  omega

/- ------------------------------------------------------------------ -/
/- Claims                                                             -/
/- ------------------------------------------------------------------ -/

/-- C6: for all `Time` values `a`, `b` (their microsecond fields being `i64`
values), `(a + b) - b = a`, where both operations are two's-complement 64-bit
arithmetic on the microsecond field, wrapping silently on overflow with no
error path. -/
theorem time_add_sub_cancel (a b : Time) (ha : a.wf) :
    a + b - b = a := by
  show Time.sub (Time.add a b) b = a
  unfold Time.sub Time.add
  rw [Time.ext_iff']
  show wrap64 (wrap64 (a.microseconds + b.microseconds) - b.microseconds) = a.microseconds
  unfold Time.wf isI64 at ha
  unfold wrap64
  omega

theorem time_add_sub_cancel_witness :
    (Time.ofMicroseconds 5).wf ∧
      Time.ofMicroseconds 5 + Time.ofMicroseconds (-7) - Time.ofMicroseconds (-7) =
        Time.ofMicroseconds 5 :=
  ⟨by decide, time_add_sub_cancel (Time.ofMicroseconds 5) (Time.ofMicroseconds (-7)) (by decide)⟩

/-- C7: for every `i32` value `m`, `Time::milliseconds(m).as_microseconds()`
equals `m * 1000` exactly: the constructor widens to 64 bits before
multiplying by 1000, so no overflow occurs anywhere in the `i32` range. -/
theorem milliseconds_as_microseconds (m : Int)
    (hlo : -2 ^ 31 ≤ m) (hhi : m < 2 ^ 31) :
    (Time.milliseconds m).as_microseconds = m * 1000 := by
  unfold Time.milliseconds Time.as_microseconds
  apply wrap64_eq_self
  unfold isI64
  constructor <;> nlinarith

theorem milliseconds_as_microseconds_witness :
    (Time.milliseconds (-2147483648)).as_microseconds = -2147483648 * 1000 :=
  milliseconds_as_microseconds (-2147483648) (by decide) (by decide)

/-- C8: `TimeSpan::from_raw(x.into_raw()) = x` component-wise: both the
offset and the length `Time` fields survive the round trip through the
two-field microsecond record. -/
theorem timespan_roundtrip (x : TimeSpan) :
    TimeSpan.from_raw (TimeSpan.into_raw x) = x := by
  unfold TimeSpan.from_raw TimeSpan.into_raw Time.as_microseconds
  cases x with
  | mk o l => cases o; cases l; rfl

/-- C10: `Time::default()` is `Time::ZERO`, whose microsecond field is 0, and
`ZERO` is a two-sided identity for `Time` addition on every `Time` value. -/
theorem zero_default_add_identity :
    Time.default = Time.ZERO ∧ Time.ZERO.microseconds = 0 ∧
      ∀ t : Time, t.wf → Time.ZERO + t = t ∧ t + Time.ZERO = t := by
  refine ⟨rfl, rfl, fun t ht => ?_⟩
  unfold Time.wf at ht
  constructor <;>
  · show Time.add _ _ = t
    unfold Time.add Time.ZERO
    rw [Time.ext_iff']
    simp [wrap64_eq_self _ (by simpa using ht)]

theorem zero_default_add_identity_witness :
    Time.ZERO + Time.ofMicroseconds 42 = Time.ofMicroseconds 42 ∧
      Time.ofMicroseconds 42 + Time.ZERO = Time.ofMicroseconds 42 :=
  zero_default_add_identity.2.2 (Time.ofMicroseconds 42) (by decide)

/-- C1 counterexample: over an in-memory source, the seek callback invoked
with the negative position -1 panics in `position.try_into().unwrap()` and
produces no normal C-ABI return at all — in particular it does not return the
-1 sentinel the claim promises for every negative requested position. -/
theorem seekCb_negative_position_cex :
    seekCb memOps ⟨[0, 1, 2], 0⟩ (-1) = Outcome.panicked ∧
      (seekCb memOps ⟨[0, 1, 2], 0⟩ (-1)).returnsNormally = false := by
  constructor <;> rfl

/-- C1 amended: for every nonnegative requested position, the seek callback
returns the resulting position when the underlying seek succeeds (and the
result fits in `i64`) and returns -1 when the underlying seek fails; for
every negative requested position the callback panics in the position
conversion (`try_into().unwrap()`) instead of returning -1. -/
theorem seekCb_behavior {σ : Type} (ops : StreamOps σ) (s : σ) (position : Int) :
    (∀ n s', 0 ≤ position → ops.seek s (.start position.toNat) = (some n, s') →
        (n : Int) < 2 ^ 63 → seekCb ops s position = .ret ((n : Int), s')) ∧
      (∀ s', 0 ≤ position → ops.seek s (.start position.toNat) = (none, s') →
        seekCb ops s position = .ret (-1, s')) ∧
      (position < 0 → seekCb ops s position = .panicked) := by
  refine ⟨fun n s' hpos hseek hlt => ?_, fun s' hpos hseek => ?_, fun hneg => ?_⟩ <;>
    unfold seekCb
  · rw [if_pos hpos]
    simp [hseek, hlt]
    omega
  · rw [if_pos hpos]
    simp [hseek]
  · rw [if_neg (by omega)]

theorem seekCb_behavior_witness :
    seekCb memOps ⟨[0, 1, 2], 0⟩ 5 = .ret (5, ⟨[0, 1, 2], 5⟩) :=
  (seekCb_behavior memOps ⟨[0, 1, 2], 0⟩ 5).1 5 ⟨[0, 1, 2], 5⟩
    (by decide) (by decide) (by decide)

/-- C2 counterexample: on a source whose position query succeeds but whose
seek to the end fails, the getSize callback panics in the second `.unwrap()`
and produces no normal return at all — it does not return a best-available
size as the claim promises when either internal seek fails. -/
theorem getSizeCb_endfail_cex :
    getSizeCb endFailOps () = Outcome.panicked ∧
      (getSizeCb endFailOps ()).returnsNormally = false := by
  constructor <;> rfl

/-- C2 amended: when the position query and the seek to the end succeed (and
the size fits in `i64`), getSize returns that size as a normal return value
even when the restoring seek fails (its result is discarded); but when the
seek to the end itself fails, the callback panics instead of returning. -/
theorem getSizeCb_behavior {σ : Type} (ops : StreamOps σ) (s : σ) :
    (∀ p s1 size s2, ops.seek s (.current 0) = (some p, s1) →
        ops.seek s1 (.fromEnd 0) = (some size, s2) → (size : Int) < 2 ^ 63 →
        getSizeCb ops s = .ret ((size : Int), (ops.seek s2 (.start p)).2)) ∧
      (∀ p s1 s2, ops.seek s (.current 0) = (some p, s1) →
        ops.seek s1 (.fromEnd 0) = (none, s2) →
        getSizeCb ops s = .panicked) := by
  constructor
  · intro p s1 size s2 hcur hend hlt
    unfold getSizeCb
    simp [hcur, hend, hlt]
    omega
  · intro p s1 s2 hcur hend
    unfold getSizeCb
    simp [hcur, hend]

theorem getSizeCb_behavior_witness :
    getSizeCb restoreFailOps () = .ret (5, ()) :=
  (getSizeCb_behavior restoreFailOps ()).1 0 () 5 ()
    (by decide) (by decide) (by decide)

/-- C3: the read callback returns 0 and leaves the destination buffer
untouched when the requested size is 0; returns -1 when the requested size is
negative; and when the underlying read fails it returns -1 with the
destination buffer untouched — never a partial byte count. -/
theorem readCb_error_paths {σ : Type} (ops : StreamOps σ) (s : σ)
    (dest : List Nat) (size : Int) :
    (size = 0 → readCb ops s dest size = .ret (0, s, dest)) ∧
      (size < 0 → readCb ops s dest size = .ret (-1, s, dest)) ∧
      (∀ s', 0 < size → ops.readUpTo s size.toNat = (none, s') →
        readCb ops s dest size = .ret (-1, s', dest)) := by
  refine ⟨fun h0 => ?_, fun hneg => ?_, fun s' hpos hfail => ?_⟩ <;> unfold readCb
  · rw [if_pos h0]
  · rw [if_neg (by omega), if_neg (by omega)]
  · rw [if_neg (by omega), if_pos hpos, hfail]

theorem readCb_error_paths_witness :
    readCb failOps () [9, 9] 5 = .ret (-1, (), [9, 9]) :=
  (readCb_error_paths failOps () [9, 9] 5).2.2 () (by decide) (by decide)

/-- C4: over an in-memory source at position `pos` in data of length `L`, for
every requested size `n > 0` the read callback copies exactly
`k = min n (L − pos)` bytes taken from position `pos` onward of the source
into the front of the destination buffer and returns `k`, with `0 ≤ k ≤ n`;
at end of stream `k = 0`, a normal return rather than an error. -/
theorem readCb_mem (m : MemStream) (dest : List Nat) (n : Int) (hn : 0 < n) :
    readCb memOps m dest n =
      .ret (((min n.toNat (m.data.length - m.pos) : Nat) : Int),
        ⟨m.data, m.pos + min n.toNat (m.data.length - m.pos)⟩,
        (m.data.drop m.pos).take n.toNat ++
          dest.drop (min n.toNat (m.data.length - m.pos))) ∧
      0 ≤ ((min n.toNat (m.data.length - m.pos) : Nat) : Int) ∧
      ((min n.toNat (m.data.length - m.pos) : Nat) : Int) ≤ n ∧
      (m.data.length ≤ m.pos → min n.toNat (m.data.length - m.pos) = 0) := by
  have hlen : ((m.data.drop m.pos).take n.toNat).length =
      min n.toNat (m.data.length - m.pos) := by
    simp
  have hton : (n.toNat : Int) = n := Int.toNat_of_nonneg (le_of_lt hn)
  refine ⟨?_, by omega, ?_, fun h => by omega⟩
  · unfold readCb
    rw [if_neg (by omega), if_pos hn]
    show (match memOps.readUpTo m n.toNat with
      | (some buf, s') => Outcome.ret ((buf.length : Int), s', copyInto dest buf)
      | (none, s') => Outcome.ret (-1, s', dest)) = _
    unfold memOps memReadUpTo copyInto
    simp only [hlen]
  · have : min n.toNat (m.data.length - m.pos) ≤ n.toNat := Nat.min_le_left _ _
    omega

theorem readCb_mem_witness :
    readCb memOps ⟨[10, 11, 12, 13, 14, 15, 16, 17, 18, 19], 5⟩ [0, 0, 0, 0] 3 =
        .ret (3, ⟨[10, 11, 12, 13, 14, 15, 16, 17, 18, 19], 8⟩, [15, 16, 17, 0]) :=
  (readCb_mem ⟨[10, 11, 12, 13, 14, 15, 16, 17, 18, 19], 5⟩ [0, 0, 0, 0] 3 (by decide)).1

/-- C5: over a seekable source whose seeks succeed — the position query
returns `p` without moving, the seek to the end returns the total length `L`,
and the restoring seek returns to `p` — the getSize callback returns `L` and
leaves the source at a state where tell reports the same position `p` it
reported before the call. -/
theorem getSizeCb_preserves_position {σ : Type} (ops : StreamOps σ) (s : σ)
    (p L : Nat) (s2 s' : σ)
    (hcur : ops.seek s (.current 0) = (some p, s))
    (hend : ops.seek s (.fromEnd 0) = (some L, s2))
    (hrestore : ops.seek s2 (.start p) = (some p, s'))
    (hcur2 : ops.seek s' (.current 0) = (some p, s'))
    (hL : (L : Int) < 2 ^ 63) (hp : (p : Int) < 2 ^ 63) :
    getSizeCb ops s = .ret ((L : Int), s') ∧
      tellCb ops s = .ret ((p : Int), s) ∧
      tellCb ops s' = .ret ((p : Int), s') := by
  refine ⟨?_, ?_, ?_⟩
  · unfold getSizeCb
    simp [hcur, hend, hrestore, hL]
    omega
  · unfold tellCb
    simp [hcur, hp]
    omega
  · unfold tellCb
    simp [hcur2, hp]
    omega

theorem getSizeCb_preserves_position_witness :
    getSizeCb memOps ⟨[1, 2, 3], 1⟩ = .ret (3, ⟨[1, 2, 3], 1⟩) ∧
      tellCb memOps ⟨[1, 2, 3], 1⟩ = .ret (1, ⟨[1, 2, 3], 1⟩) ∧
      tellCb memOps ⟨[1, 2, 3], 1⟩ = .ret (1, ⟨[1, 2, 3], 1⟩) :=
  getSizeCb_preserves_position memOps ⟨[1, 2, 3], 1⟩ 1 3 ⟨[1, 2, 3], 3⟩ ⟨[1, 2, 3], 1⟩
    (by decide) (by decide) (by decide) (by decide) (by decide) (by decide)

/-- C9: for a clock and two monotonic readings taken in order (the source
never regresses and the elapsed span fits in `i64`), the elapsed time
reported at the later reading is at least the one reported at the earlier
reading; and a restart at the later reading returns exactly the elapsed time
that `elapsed_time` would report there, so the elapsed-then-restart pair is
non-decreasing as well. -/
theorem clock_elapsed_nondecreasing (c : sfClock) (n1 n2 : Time)
    (h1 : c.start_time.microseconds ≤ n1.microseconds)
    (h12 : n1.microseconds ≤ n2.microseconds)
    (hw : n2.microseconds - c.start_time.microseconds < 2 ^ 63) :
    (Clock.elapsed_time c n1).as_microseconds ≤
        (Clock.elapsed_time c n2).as_microseconds ∧
      (Clock.restart c n2).1 = Clock.elapsed_time c n2 := by
  constructor
  · show wrap64 (n1.microseconds - c.start_time.microseconds) ≤
       wrap64 (n2.microseconds - c.start_time.microseconds)
    rw [wrap64_eq_self _ (by unfold isI64; omega),
      wrap64_eq_self _ (by unfold isI64; omega)]
    omega
  · rfl

theorem clock_elapsed_nondecreasing_witness :
    (Clock.elapsed_time ⟨⟨100⟩⟩ ⟨150⟩).as_microseconds ≤
        (Clock.elapsed_time ⟨⟨100⟩⟩ ⟨250⟩).as_microseconds ∧
      (Clock.restart ⟨⟨100⟩⟩ ⟨250⟩).1 = Clock.elapsed_time ⟨⟨100⟩⟩ ⟨250⟩ :=
  clock_elapsed_nondecreasing ⟨⟨100⟩⟩ ⟨150⟩ ⟨250⟩ (by decide) (by decide) (by decide)
